import Mathlib

set_option maxHeartbeats 1000000

/-!
Shallow embedding of the rust_gp genetic-programming core
(src/chromosome.rs, src/functions.rs, src/population.rs).

Modelling conventions:
* `f64` is embedded as `F64`: an exact rational together with the three
  non-finite values `inf`, `neginf` and `nan`.  Finite arithmetic is exact
  over `ℚ`; a result whose magnitude exceeds `f64::MAX` overflows to the
  signed infinity.  (IEEE rounding of in-range results is not modelled;
  no theorem below depends on a value where rounding matters, and the
  signed zero is identified with zero.)
* Every random draw of the source is externalised: `rand::random::<bool>()`
  becomes an explicit `Bool`, `gen_range(0..n)` becomes `raw % n` for a
  caller-supplied natural `raw` (for `n = 0` the Rust call panics; the
  model is total and those call sites are unreachable in the theorems),
  and `rand::random::<f64>()` (the `Standard` distribution, 53 random bits
  scaled by `2⁻⁵³`, uniform on `[0,1)`) becomes `randUnit raw`.
* Rust function pointers (`fn(f64, f64) -> (f64, String)`) are embedded as
  the enumeration `Op` of the nine functions of src/functions.rs; only the
  numeric component matters to the claims, so the name component is dropped.
-/

/-- Model of a 64-bit IEEE-754 double: an exact rational for the finite
values plus the two infinities and NaN. -/
inductive F64 where
  | finite : ℚ → F64
  | inf : F64
  | neginf : F64
  | nan : F64
deriving DecidableEq

/-- `f64::MAX`, the largest finite double, exactly: `(2 - 2⁻⁵²) · 2¹⁰²³`. -/
def f64MAX : ℚ := 2 ^ 1024 - 2 ^ 971

/-- A finite result of magnitude beyond `f64::MAX` overflows to the signed
infinity; otherwise it is represented exactly. -/
def overflow (q : ℚ) : F64 :=
  if f64MAX < q then F64.inf else if q < -f64MAX then F64.neginf else F64.finite q

/-- `f64::is_infinite`: true exactly for the two infinities (false for NaN). -/
def f64IsInfinite : F64 → Bool
  | F64.inf => true
  | F64.neginf => true
  | _ => false

/-- `f64::is_nan`. -/
def f64IsNan : F64 → Bool
  | F64.nan => true
  | _ => false

/-- IEEE negation. -/
def f64Neg : F64 → F64
  | F64.finite a => F64.finite (-a)
  | F64.inf => F64.neginf
  | F64.neginf => F64.inf
  | F64.nan => F64.nan

/-- IEEE addition (exact in the finite range, see module comment). -/
def f64Add : F64 → F64 → F64
  | F64.nan, _ => F64.nan
  | _, F64.nan => F64.nan
  | F64.inf, F64.neginf => F64.nan
  | F64.neginf, F64.inf => F64.nan
  | F64.inf, _ => F64.inf
  | _, F64.inf => F64.inf
  | F64.neginf, _ => F64.neginf
  | _, F64.neginf => F64.neginf
  | F64.finite a, F64.finite b => overflow (a + b)

/-- IEEE subtraction, `x - y = x + (-y)`. -/
def f64Sub (x y : F64) : F64 := f64Add x (f64Neg y)

/-- IEEE multiplication. -/
def f64Mul : F64 → F64 → F64
  | F64.nan, _ => F64.nan
  | _, F64.nan => F64.nan
  | F64.inf, F64.inf => F64.inf
  | F64.inf, F64.neginf => F64.neginf
  | F64.neginf, F64.inf => F64.neginf
  | F64.neginf, F64.neginf => F64.inf
  | F64.inf, F64.finite b => if b = 0 then F64.nan else if 0 < b then F64.inf else F64.neginf
  | F64.finite a, F64.inf => if a = 0 then F64.nan else if 0 < a then F64.inf else F64.neginf
  | F64.neginf, F64.finite b => if b = 0 then F64.nan else if 0 < b then F64.neginf else F64.inf
  | F64.finite a, F64.neginf => if a = 0 then F64.nan else if 0 < a then F64.neginf else F64.inf
  | F64.finite a, F64.finite b => overflow (a * b)

/-- IEEE division (signed zero identified with zero, so `x / 0` takes the
sign of `x`; the safe `divide` below intercepts zero divisors anyway). -/
def f64Div : F64 → F64 → F64
  | F64.nan, _ => F64.nan
  | _, F64.nan => F64.nan
  | F64.inf, F64.inf => F64.nan
  | F64.inf, F64.neginf => F64.nan
  | F64.neginf, F64.inf => F64.nan
  | F64.neginf, F64.neginf => F64.nan
  | F64.inf, F64.finite b => if 0 ≤ b then F64.inf else F64.neginf
  | F64.neginf, F64.finite b => if 0 ≤ b then F64.neginf else F64.inf
  | F64.finite _, F64.inf => F64.finite 0
  | F64.finite _, F64.neginf => F64.finite 0
  | F64.finite a, F64.finite b =>
    if b = 0 then (if a = 0 then F64.nan else if 0 < a then F64.inf else F64.neginf)
    else overflow (a / b)

/-- IEEE `<` (every comparison with NaN is false). -/
def f64Lt : F64 → F64 → Bool
  | F64.nan, _ => false
  | _, F64.nan => false
  | F64.neginf, F64.neginf => false
  | F64.neginf, _ => true
  | _, F64.neginf => false
  | F64.inf, _ => false
  | F64.finite _, F64.inf => true
  | F64.finite a, F64.finite b => decide (a < b)

/-- IEEE `>=` (false whenever NaN is involved). -/
def f64Ge : F64 → F64 → Bool
  | F64.nan, _ => false
  | _, F64.nan => false
  | F64.inf, _ => true
  | _, F64.inf => false
  | _, F64.neginf => true
  | F64.neginf, _ => false
  | F64.finite a, F64.finite b => decide (b ≤ a)

/-- IEEE `==` (false whenever NaN is involved). -/
def f64Eq : F64 → F64 → Bool
  | F64.nan, _ => false
  | _, F64.nan => false
  | F64.inf, F64.inf => true
  | F64.neginf, F64.neginf => true
  | F64.inf, _ => false
  | _, F64.inf => false
  | F64.neginf, _ => false
  | _, F64.neginf => false
  | F64.finite a, F64.finite b => decide (a = b)

/-- Rust `f64::max`: ignores a NaN argument, in line with the std docs. -/
def f64Max : F64 → F64 → F64
  | F64.nan, y => y
  | x, F64.nan => x
  | F64.inf, _ => F64.inf
  | _, F64.inf => F64.inf
  | F64.neginf, y => y
  | x, F64.neginf => x
  | F64.finite a, F64.finite b => F64.finite (max a b)

/-- Rust `f64::min`: ignores a NaN argument. -/
def f64Min : F64 → F64 → F64
  | F64.nan, y => y
  | x, F64.nan => x
  | F64.neginf, _ => F64.neginf
  | _, F64.neginf => F64.neginf
  | F64.inf, y => y
  | x, F64.inf => x
  | F64.finite a, F64.finite b => F64.finite (min a b)

/-- Integer approximation of the base-2 logarithm of a positive rational.
`f64::log2` of a positive number is irrational in general and cannot be a
rational; no theorem in this file depends on the value of `log2` on a
positive finite input, only on its NaN/infinity behaviour. -/
def ratLog2 (q : ℚ) : ℚ := (Int.log 2 q : ℚ)

/-- `f64::log2`: NaN on negative inputs, `-inf` at zero. -/
def f64Log2 : F64 → F64
  | F64.nan => F64.nan
  | F64.inf => F64.inf
  | F64.neginf => F64.nan
  | F64.finite q => if q < 0 then F64.nan else if q = 0 then F64.neginf else F64.finite (ratLog2 q)

/-- `GeneType` of src/chromosome.rs (`Variable` is a Lean command keyword,
so the constructor is named `var`). -/
inductive GeneType where
  | constant : F64 → GeneType
  | var : ℕ → GeneType
  | unary : GeneType
  | binary : GeneType
deriving DecidableEq

/-- The nine functions of src/functions.rs plus the `nothing` placeholder;
stands in for the Rust function pointer `fn(f64, f64) -> (f64, String)`. -/
inductive Op where
  | add | subtract | divide | multiply | max | min | square | log2 | nothing
deriving DecidableEq

/-- `Gene` of src/chromosome.rs. -/
structure Gene where
  type_of_gene : GeneType
  left_ptr : ℕ
  right_ptr : ℕ
  ops : Op
deriving DecidableEq

/-- The `rand` crate's `Standard` distribution on `f64`: 53 random bits
scaled by `2⁻⁵³`, uniform on `[0, 1)`.  `raw` is the externalised random
input. -/
def randUnit (raw : ℕ) : ℚ := ((raw % 2 ^ 53 : ℕ) : ℚ) / 2 ^ 53

/-- `rand::thread_rng().gen_range(0..bound)`, with the draw externalised as
`raw`.  For `bound = 0` the Rust call panics; the model is total and every
theorem below only exercises it with a positive bound. -/
def genRange (raw bound : ℕ) : ℕ := raw % bound

/-- The random draws one call of `Gene::new_random_gene` may make: the three
`random()` coin flips (terminal-vs-operator, constant-vs-variable,
binary-vs-unary) and the raw values behind the constant, the variable index,
the two reference pointers and the operator choices. -/
structure RandChoices where
  coin1 : Bool
  coin2 : Bool
  coin3 : Bool
  constRaw : ℕ
  varRaw : ℕ
  leftRaw : ℕ
  rightRaw : ℕ
  unaryOpRaw : ℕ
  binaryOpRaw : ℕ
deriving DecidableEq

/-- `get_unary_function` of src/functions.rs: a uniform pick from
`[square, log2]`. -/
def get_unary_function (raw : ℕ) : Op := [Op.square, Op.log2].getD (genRange raw 2) Op.square

/-- `get_binary_function` of src/functions.rs: a uniform pick from
`[add, subtract, divide, multiply, max, min]`. -/
def get_binary_function (raw : ℕ) : Op :=
  [Op.add, Op.subtract, Op.divide, Op.multiply, Op.max, Op.min].getD (genRange raw 6) Op.add

/-- `Gene::new_constant`: the stored value is the supplied constant, or a
fresh draw from `[0, 1)` when none is supplied. -/
def Gene.new_constant (constant : Option F64) (raw : ℕ) : Gene :=
  { type_of_gene := GeneType.constant (constant.getD (F64.finite (randUnit raw)))
    left_ptr := 0
    right_ptr := 0
    ops := Op.nothing }

/-- `Gene::new_random_variable`: index drawn by `gen_range(0..num_variables)`. -/
def Gene.new_random_variable (num_variables : ℕ) (raw : ℕ) : Gene :=
  { type_of_gene := GeneType.var (genRange raw num_variables)
    left_ptr := 0
    right_ptr := 0
    ops := Op.nothing }

/-- `Gene::new_unary`: left pointer drawn by `gen_range(0..curr_loc)`. -/
def Gene.new_unary (curr_loc : ℕ) (rawLeft rawOp : ℕ) : Gene :=
  { type_of_gene := GeneType.unary
    left_ptr := genRange rawLeft curr_loc
    right_ptr := 0
    ops := get_unary_function rawOp }

/-- `Gene::new_binary`: both pointers drawn by `gen_range(0..curr_loc)`. -/
def Gene.new_binary (curr_loc : ℕ) (rawLeft rawRight rawOp : ℕ) : Gene :=
  { type_of_gene := GeneType.binary
    left_ptr := genRange rawLeft curr_loc
    right_ptr := genRange rawRight curr_loc
    ops := get_binary_function rawOp }

/-- `Gene::new_random_gene` of src/chromosome.rs:
`if random() || first_or_second { if random() { constant } else { variable } }
else if random() { binary } else { unary }`. -/
def Gene.new_random_gene (curr_loc num_variables : ℕ)
    (first_or_second_in_chromosome : Bool) (rc : RandChoices) : Gene :=
  if rc.coin1 || first_or_second_in_chromosome then
    if rc.coin2 then Gene.new_constant none rc.constRaw
    else Gene.new_random_variable num_variables rc.varRaw
  else if rc.coin3 then Gene.new_binary curr_loc rc.leftRaw rc.rightRaw rc.binaryOpRaw
  else Gene.new_unary curr_loc rc.leftRaw rc.unaryOpRaw

/-- `Chromosome` of src/chromosome.rs. -/
structure Chromosome where
  genes : List Gene
  fitness_value : F64
  accessed : Bool
deriving DecidableEq

/-- `Chromosome::new`: empty genes, fitness `f64::MAX`. -/
def Chromosome.new : Chromosome :=
  { genes := [], fitness_value := F64.finite f64MAX, accessed := false }

/-- Out-of-bounds placeholder for `getD`; Rust indexing panics instead, and
every theorem below only indexes in bounds. -/
def defaultGene : Gene :=
  { type_of_gene := GeneType.constant (F64.finite 0), left_ptr := 0, right_ptr := 0, ops := Op.nothing }

/-- `Chromosome::new_x`: `num_genes` genes, gene `i` built by
`new_random_gene(i, num_variables, i == 1 || i == 0)`; `rcs i` supplies the
random draws of gene `i`. -/
def Chromosome.new_x (num_genes num_variables : ℕ) (rcs : ℕ → RandChoices) : Chromosome :=
  { Chromosome.new with
    genes := (List.range num_genes).map
      (fun i => Gene.new_random_gene i num_variables (i == 1 || i == 0) (rcs i)) }

/-- The numeric component of applying a gene's stored function pointer,
from src/functions.rs (`nothing` returns `0.0`). -/
def applyOp : Op → F64 → F64 → F64
  | Op.add, x, y => f64Add x y
  | Op.subtract, x, y => f64Sub x y
  | Op.divide, x, y =>
    if f64Eq y (F64.finite 0) then
      (if f64Ge x (F64.finite 0) then F64.finite f64MAX else F64.finite (-f64MAX))
    else f64Div x y
  | Op.multiply, x, y => f64Mul x y
  | Op.max, x, y => f64Max x y
  | Op.min, x, y => f64Min x y
  | Op.square, x, _ => f64Mul x x
  | Op.log2, x, _ => f64Log2 x
  | Op.nothing, _, _ => F64.finite 0

/-- `divide` of src/functions.rs:
`if y == 0.0 { if x >= 0.0 { f64::MAX } else { -1.0 * f64::MAX } } else { x / y }`. -/
def divide (x y : F64) : F64 := applyOp Op.divide x y

/-- `Gene::operation`, the recursive tree-walk of src/chromosome.rs, made
total with a fuel argument: on a chromosome satisfying the acyclicity
invariant every reference chain strictly descends, so fuel equal to the
gene count never runs out; an invariant-violating chromosome (where the
Rust code would recurse forever) yields NaN on exhaustion. -/
def operationFuel (genes : List Gene) (row : List F64) : ℕ → ℕ → F64
  | 0, _ => F64.nan
  | fuel + 1, i =>
    let g := genes.getD i defaultGene
    match g.type_of_gene with
    | GeneType.constant x => x
    | GeneType.var x => row.getD x F64.nan
    | GeneType.unary => applyOp g.ops (operationFuel genes row fuel g.left_ptr) (F64.finite (-1))
    | GeneType.binary =>
      applyOp g.ops (operationFuel genes row fuel g.left_ptr)
        (operationFuel genes row fuel g.right_ptr)

/-- `Chromosome::evaluate_fitness`: evaluate the root gene
`genes[genes.len() - 1]`. -/
def Chromosome.evaluate_fitness (c : Chromosome) (row : List F64) : F64 :=
  operationFuel c.genes row c.genes.length (c.genes.length - 1)

/-- `(predicted - expected).powi(2)`. -/
def f64PowI2 (x : F64) : F64 := f64Mul x x

/-- `Chromosome::evaluate_fitness_mse`: sum the squared errors against each
row's last column, divide by the row count, and clamp to `f64::MAX` exactly
when `total.is_infinite()`.  The source stores the result in
`fitness_value` (see `evalChromosome`) and returns it. -/
def Chromosome.evaluate_fitness_mse (c : Chromosome) (ds : List (List F64)) : F64 :=
  let total := ds.foldl
    (fun t row =>
      f64Add t (f64PowI2 (f64Sub (c.evaluate_fitness row) (row.getD (row.length - 1) F64.nan))))
    (F64.finite 0)
  let total2 := f64Div total (F64.finite (ds.length : ℚ))
  if f64IsInfinite total2 then F64.finite f64MAX else total2

/-- `Chromosome::cross_with` at locus `crossover_loc`: the source swaps the
genes at positions `crossover_loc..self.len()` between the two parents in
place; on equal-length parents (the only case the swap loop is defined on —
a shorter second parent panics) that is exactly this pair of take/drop
exchanges.  The `None` locus case draws `gen_range(0..self.len())`. -/
def Chromosome.cross_with (c parent_2 : Chromosome) (crossover_loc : ℕ) :
    Chromosome × Chromosome :=
  ({ c with genes := c.genes.take crossover_loc ++ parent_2.genes.drop crossover_loc },
   { parent_2 with genes := parent_2.genes.take crossover_loc ++ c.genes.drop crossover_loc })

/-- `Chromosome::mutate`: draw `mut_loc = gen_range(0..len)` and overwrite
that gene with `new_random_gene(mut_loc, num_variables, mut_loc == 0 || mut_loc == 1)`. -/
def Chromosome.mutate (c : Chromosome) (num_variables : ℕ) (rawLoc : ℕ) (rc : RandChoices) :
    Chromosome :=
  let mut_loc := genRange rawLoc c.genes.length
  { c with
    genes := c.genes.set mut_loc
      (Gene.new_random_gene mut_loc num_variables ((mut_loc == 0) || (mut_loc == 1)) rc) }

/-- `Population` of src/population.rs. -/
structure Population where
  population : List Chromosome
  best : Chromosome
deriving DecidableEq

/-- `Population::find_best_min`: walk the members in order and replace the
cached best whenever a member's fitness is strictly lower. -/
def find_best_min (p : Population) : Population :=
  { p with
    best := p.population.foldl
      (fun b i => if f64Lt i.fitness_value b.fitness_value then i else b) p.best }

/-- `Population::get_random_chromosome`:
`&self.population[gen_range(0..self.len())]`.  (Rust panics on an empty
population; the model returns a placeholder out of bounds.) -/
def get_random_chromosome (p : Population) (raw : ℕ) : Chromosome :=
  p.population.getD (genRange raw p.population.length) Chromosome.new

/-- `Population::tournament_selection`: draw two members and return
`if c1.fitness_value < c2.fitness_value { c1 } else { c2 }`. -/
def tournament_selection (p : Population) (raw1 raw2 : ℕ) : Chromosome :=
  let c1 := get_random_chromosome p raw1
  let c2 := get_random_chromosome p raw2
  if f64Lt c1.fitness_value c2.fitness_value then c1 else c2

/-- The act of `evaluate_fitness_mse` on one member: store the mse into
`fitness_value` and set the `accessed` marker. -/
def evalChromosome (c : Chromosome) (ds : List (List F64)) : Chromosome :=
  { c with fitness_value := c.evaluate_fitness_mse ds, accessed := true }

/-- `Population::evaluate`: recompute every member's fitness (the parallel
map of the source — each task touches only its own member, so the result
equals this sequential map), then refresh the cached best. -/
def Population.evaluate (p : Population) (ds : List (List F64)) : Population :=
  find_best_min { p with population := p.population.map (fun c => evalChromosome c ds) }

/-- The random draws one call of `get_new_offspring` may make: two index
pairs for the two tournaments, the `gen_bool(crossover_chance)` and the two
`gen_bool(mutation_chance)` outcomes (the Bernoulli draws are externalised
as their outcomes), the crossover locus draw, and the two mutation draw
bundles. -/
structure OffspringRand where
  t1a : ℕ
  t1b : ℕ
  t2a : ℕ
  t2b : ℕ
  doCross : Bool
  crossLocRaw : ℕ
  doMut1 : Bool
  mutLocRaw1 : ℕ
  mutRc1 : RandChoices
  doMut2 : Bool
  mutLocRaw2 : ℕ
  mutRc2 : RandChoices

/-- `get_new_offspring` (the local fn inside `Population::mate`): clone two
tournament winners, cross them with probability `crossover_chance` at a
random locus in `[0, offspring_one.len())`, then mutate each independently
with probability `mutation_chance`. -/
def get_new_offspring (p : Population) (num_variables : ℕ) (r : OffspringRand) :
    Chromosome × Chromosome :=
  let offspring_one := tournament_selection p r.t1a r.t1b
  let offspring_two := tournament_selection p r.t2a r.t2b
  let pair :=
    if r.doCross then
      offspring_one.cross_with offspring_two (genRange r.crossLocRaw offspring_one.genes.length)
    else (offspring_one, offspring_two)
  (if r.doMut1 then pair.1.mutate num_variables r.mutLocRaw1 r.mutRc1 else pair.1,
   if r.doMut2 then pair.2.mutate num_variables r.mutLocRaw2 r.mutRc2 else pair.2)

/-- The flat-mapped offspring of `Population::mate`: the source iterates
`(1..len).step_by(2)` — which has `len / 2` elements — and contributes the
pair `vec![offspring_one, offspring_two]` per iteration; `rs k` supplies
iteration `k`'s random draws. -/
def offspringPairs (p : Population) (num_variables : ℕ) (rs : ℕ → OffspringRand) :
    ℕ → List Chromosome
  | 0 => []
  | n + 1 =>
    offspringPairs p num_variables rs n ++
      [(get_new_offspring p num_variables (rs n)).1,
       (get_new_offspring p num_variables (rs n)).2]

/-- `Population::mate`: build `len / 2` offspring pairs from the old
population, push a clone of the (not yet updated) cached best, replace the
population, re-evaluate, and return the best's fitness value (here: the
whole resulting `Population`; the source's return value is
`(Population.mate ...).best.fitness_value`). -/
def Population.mate (p : Population) (num_variables : ℕ) (rs : ℕ → OffspringRand)
    (ds : List (List F64)) : Population :=
  let new_population := offspringPairs p num_variables rs (p.population.length / 2) ++ [p.best]
  Population.evaluate { population := new_population, best := p.best } ds

/-- The variable count `Population::initialize` (and the driver in
src/gp.rs) hands to every `Chromosome::new_x` call:
`dataset[0].len() - 2`. -/
def initVarCount (ds : List (List F64)) : ℕ := (ds.getD 0 []).length - 2

/-- `Population::initialize`: `size` random chromosomes of `num_genes` genes
each, built with variable count `dataset[0].len() - 2`, best seeded with the
sentinel `Chromosome::new()` and then refreshed; `rcs k i` supplies the
draws of gene `i` of member `k`. -/
def initPopulation (size num_genes : ℕ) (ds : List (List F64))
    (rcs : ℕ → ℕ → RandChoices) : Population :=
  find_best_min
    { population := (List.range size).map
        (fun k => Chromosome.new_x num_genes (initVarCount ds) (rcs k))
      best := Chromosome.new }

/-- The acyclicity invariant for one gene at position `i`: every reference
index it holds is strictly less than `i` (terminals hold none). -/
def geneOkB (g : Gene) (i : ℕ) : Bool :=
  match g.type_of_gene with
  | GeneType.constant _ => true
  | GeneType.var _ => true
  | GeneType.unary => decide (g.left_ptr < i)
  | GeneType.binary => decide (g.left_ptr < i) && decide (g.right_ptr < i)

/-- The acyclicity invariant for a gene list whose head sits at position
`i`. -/
def genesOkB : List Gene → ℕ → Bool
  | [], _ => true
  | g :: gs, i => geneOkB g i && genesOkB gs (i + 1)

/-- The acyclicity invariant of a chromosome. -/
def chromosomeOkB (c : Chromosome) : Bool := genesOkB c.genes 0

/-- A terminal gene: `Constant` or `Variable`. -/
def isTerminalB (g : Gene) : Bool :=
  match g.type_of_gene with
  | GeneType.constant _ => true
  | GeneType.var _ => true
  | _ => false

/-- Positions 0 and 1 (where present) hold terminals. -/
def terminal01B (c : Chromosome) : Bool :=
  match c.genes with
  | [] => true
  | [g] => isTerminalB g
  | g0 :: g1 :: _ => isTerminalB g0 && isTerminalB g1

theorem getD_append_left {α : Type} (as bs : List α) (i : ℕ) (d : α) (h : i < as.length) :
    (as ++ bs).getD i d = as.getD i d := by
  induction as generalizing i with
  | nil => simp at h
  | cons a t ih =>
    cases i with
    | zero => rfl
    | succ n => exact ih n (by simpa using h)

theorem getD_append_right {α : Type} (as bs : List α) (i : ℕ) (d : α) (h : as.length ≤ i) :
    (as ++ bs).getD i d = bs.getD (i - as.length) d := by
  induction as generalizing i with
  | nil => simp
  | cons a t ih =>
    cases i with
    | zero => simp at h
    | succ n => simpa using ih n (by simpa using h)

theorem getD_take {α : Type} (l : List α) (n i : ℕ) (d : α) (h : i < n) :
    (l.take n).getD i d = l.getD i d := by
  induction l generalizing n i with
  | nil => simp
  | cons a t ih =>
    cases n with
    | zero => exact absurd h (by omega)
    | succ m =>
      cases i with
      | zero => rfl
      | succ k => exact ih m k (by omega)

theorem getD_drop {α : Type} (l : List α) (n i : ℕ) (d : α) :
    (l.drop n).getD i d = l.getD (n + i) d := by
  induction l generalizing n with
  | nil => simp
  | cons a t ih =>
    cases n with
    | zero => simp
    | succ m =>
      rw [show m + 1 + i = (m + i) + 1 from by omega]
      simp only [List.drop_succ_cons, List.getD_cons_succ]
      exact ih m

theorem getD_set_ne {α : Type} (l : List α) (j : ℕ) (g : α) (i : ℕ) (d : α) (h : i ≠ j) :
    (l.set j g).getD i d = l.getD i d := by
  induction l generalizing j i with
  | nil => simp
  | cons a t ih =>
    cases j with
    | zero =>
      cases i with
      | zero => exact absurd rfl h
      | succ k => rfl
    | succ m =>
      cases i with
      | zero => rfl
      | succ k => exact ih m k (by omega)

theorem getD_set_self {α : Type} (l : List α) (j : ℕ) (g : α) (d : α) (h : j < l.length) :
    (l.set j g).getD j d = g := by
  induction l generalizing j with
  | nil => simp at h
  | cons a t ih =>
    cases j with
    | zero => rfl
    | succ m => exact ih m (by simpa using h)

theorem genesOkB_append (as bs : List Gene) (i : ℕ) :
    genesOkB (as ++ bs) i = (genesOkB as i && genesOkB bs (i + as.length)) := by
  induction as generalizing i with
  | nil => simp [genesOkB]
  | cons g t ih =>
    show (geneOkB g i && genesOkB (t ++ bs) (i + 1)) =
      (geneOkB g i && genesOkB t (i + 1) && genesOkB bs (i + (t.length + 1)))
    rw [ih (i + 1), Bool.and_assoc, show i + 1 + t.length = i + (t.length + 1) from by omega]

theorem genesOkB_set (gs : List Gene) (g : Gene) (j i : ℕ)
    (hok : genesOkB gs i = true) (hg : geneOkB g (i + j) = true) :
    genesOkB (gs.set j g) i = true := by
  induction gs generalizing i j with
  | nil => simpa using hok
  | cons a t ih =>
    simp only [genesOkB, Bool.and_eq_true] at hok
    cases j with
    | zero =>
      show (geneOkB g i && genesOkB t (i + 1)) = true
      simp only [Bool.and_eq_true]
      exact ⟨by simpa using hg, hok.2⟩
    | succ m =>
      show (geneOkB a i && genesOkB (t.set m g) (i + 1)) = true
      simp only [Bool.and_eq_true]
      refine ⟨hok.1, ih m (i + 1) hok.2 ?_⟩
      have : i + 1 + m = i + (m + 1) := by omega
      rw [this]
      exact hg

theorem new_random_gene_ok (curr_loc num_variables : ℕ) (b : Bool) (rc : RandChoices)
    (h : b = true ∨ 0 < curr_loc) :
    geneOkB (Gene.new_random_gene curr_loc num_variables b rc) curr_loc = true := by
  unfold Gene.new_random_gene
  by_cases h1 : (rc.coin1 || b) = true
  · rw [if_pos h1]
    cases rc.coin2 <;>
      simp [Gene.new_constant, Gene.new_random_variable, geneOkB]
  · rw [if_neg h1]
    have hpos : 0 < curr_loc := by
      rcases h with hb | hp
      · exact absurd (by simp [hb]) h1
      · exact hp
    cases rc.coin3 <;>
      simp [Gene.new_unary, Gene.new_binary, geneOkB, genRange, Nat.mod_lt _ hpos]

theorem new_random_gene_terminal (curr_loc num_variables : ℕ) (rc : RandChoices) :
    isTerminalB (Gene.new_random_gene curr_loc num_variables true rc) = true := by
  unfold Gene.new_random_gene
  rw [if_pos (by simp)]
  cases rc.coin2 <;>
    simp [Gene.new_constant, Gene.new_random_variable, isTerminalB]

theorem new_random_gene_var_index (curr_loc num_variables : ℕ) (b : Bool) (rc : RandChoices)
    (j : ℕ)
    (h : (Gene.new_random_gene curr_loc num_variables b rc).type_of_gene = GeneType.var j) :
    j = rc.varRaw % num_variables := by
  unfold Gene.new_random_gene at h
  by_cases h1 : (rc.coin1 || b) = true
  · rw [if_pos h1] at h
    cases hc : rc.coin2 <;> rw [hc] at h
    · simp [Gene.new_random_variable, genRange] at h
      omega
    · simp [Gene.new_constant] at h
  · rw [if_neg h1] at h
    cases hc : rc.coin3 <;> rw [hc] at h
    · simp [Gene.new_unary] at h
    · simp [Gene.new_binary] at h

theorem new_random_gene_constant_val (curr_loc num_variables : ℕ) (b : Bool) (rc : RandChoices)
    (x : F64)
    (h : (Gene.new_random_gene curr_loc num_variables b rc).type_of_gene = GeneType.constant x) :
    x = F64.finite (randUnit rc.constRaw) := by
  unfold Gene.new_random_gene at h
  by_cases h1 : (rc.coin1 || b) = true
  · rw [if_pos h1] at h
    cases hc : rc.coin2 <;> rw [hc] at h
    · simp [Gene.new_random_variable] at h
    · simp [Gene.new_constant] at h
      exact h.symm
  · rw [if_neg h1] at h
    cases hc : rc.coin3 <;> rw [hc] at h
    · simp [Gene.new_unary] at h
    · simp [Gene.new_binary] at h

theorem randUnit_mem (raw : ℕ) : 0 ≤ randUnit raw ∧ randUnit raw < 1 := by
  unfold randUnit
  constructor
  · positivity
  · rw [div_lt_one (by positivity)]
    exact_mod_cast Nat.mod_lt raw (by norm_num)

theorem f64Lt_trans (a b c : F64) (h1 : f64Lt a b = true) (h2 : f64Lt b c = true) :
    f64Lt a c = true := by
  cases a <;> cases b <;> cases c <;> simp_all [f64Lt]
  exact lt_trans h1 h2

theorem f64Eq_not_lt (a b : F64) (h : f64Eq a b = true) : f64Lt a b = false := by
  cases a <;> cases b <;> simp_all [f64Eq, f64Lt]

theorem f64Lt_asymm (a b : F64) (h : f64Lt a b = true) : f64Lt b a = false := by
  cases a <;> cases b <;> simp_all [f64Lt]
  exact le_of_lt h

theorem foldl_best_le (l : List Chromosome) (b : Chromosome) :
    f64Lt (l.foldl (fun x i => if f64Lt i.fitness_value x.fitness_value then i else x)
        b).fitness_value b.fitness_value = true ∨
      (l.foldl (fun x i => if f64Lt i.fitness_value x.fitness_value then i else x)
        b).fitness_value = b.fitness_value := by
  induction l generalizing b with
  | nil => exact Or.inr rfl
  | cons c t ih =>
    simp only [List.foldl_cons]
    cases hc : f64Lt c.fitness_value b.fitness_value with
    | true =>
      rw [if_pos rfl]
      rcases ih c with h2 | h2
      · exact Or.inl (f64Lt_trans _ _ _ h2 hc)
      · rw [h2]; exact Or.inl hc
    | false =>
      rw [if_neg (by simp)]
      exact ih b

theorem offspringPairs_length (p : Population) (nv : ℕ) (rs : ℕ → OffspringRand) (n : ℕ) :
    (offspringPairs p nv rs n).length = 2 * n := by
  induction n with
  | zero => rfl
  | succ m ih =>
    simp only [offspringPairs, List.length_append, ih, List.length_cons, List.length_nil]
    omega

theorem f64Lt_zero_not_ge (x : F64) (h : f64Lt x (F64.finite 0) = true) :
    f64Ge x (F64.finite 0) = false := by
  cases x <;> simp_all [f64Lt, f64Ge]

/-- C8: `divide(x, 0)` returns the maximum representable float when
`x >= 0.0` and its negation when `x < 0.0`, and `divide(x, y)` is the
ordinary quotient `x / y` whenever `y` is nonzero (`y == 0.0` false). -/
theorem c8_divide_spec (x y : F64) :
    (f64Ge x (F64.finite 0) = true → divide x (F64.finite 0) = F64.finite f64MAX) ∧
    (f64Lt x (F64.finite 0) = true → divide x (F64.finite 0) = F64.finite (-f64MAX)) ∧
    (f64Eq y (F64.finite 0) = false → divide x y = f64Div x y) := by
  refine ⟨fun h => ?_, fun h => ?_, fun h => ?_⟩
  · simp [divide, applyOp, f64Eq, h]
  · simp [divide, applyOp, f64Eq, f64Lt_zero_not_ge x h]
  · simp [divide, applyOp, h]

/-- Witness for C8 at concrete inputs: `divide(1, 0)`, `divide(-2, 0)` and
`divide(6, 3)`. -/
theorem c8_divide_spec_witness :
    divide (F64.finite 1) (F64.finite 0) = F64.finite f64MAX ∧
    divide (F64.finite (-2)) (F64.finite 0) = F64.finite (-f64MAX) ∧
    divide (F64.finite 6) (F64.finite 3) = f64Div (F64.finite 6) (F64.finite 3) :=
  ⟨(c8_divide_spec (F64.finite 1) (F64.finite 0)).1 (by decide),
   (c8_divide_spec (F64.finite (-2)) (F64.finite 0)).2.1 (by decide),
   (c8_divide_spec (F64.finite 6) (F64.finite 3)).2.2 (by decide)⟩

/-- A chromosome whose prediction is NaN on any two-column row:
gene 2 computes `sub(add(MAX, MAX), add(MAX, MAX)) = inf - inf = NaN`. -/
def chromoNan : Chromosome :=
  { genes :=
      [{ type_of_gene := GeneType.constant (F64.finite f64MAX), left_ptr := 0, right_ptr := 0,
         ops := Op.nothing },
       { type_of_gene := GeneType.binary, left_ptr := 0, right_ptr := 0, ops := Op.add },
       { type_of_gene := GeneType.binary, left_ptr := 1, right_ptr := 1, ops := Op.subtract }]
    fitness_value := F64.finite f64MAX
    accessed := false }

/-- A one-row dataset with one input column and target `0`. -/
def dsNan : List (List F64) := [[F64.finite 0, F64.finite 0]]

/-- C2 counterexample: on `chromoNan` and `dsNan` the accumulated MSE total
is NaN — non-finite — yet `evaluate_fitness_mse` stores NaN, not
`f64::MAX`: the source clamps on `total.is_infinite()`, which is false for
NaN, so a non-finite fitness does propagate. -/
theorem f64MAX_pos : (0 : ℚ) < f64MAX := by norm_num [f64MAX]

theorem f64Add_MAX_MAX : f64Add (F64.finite f64MAX) (F64.finite f64MAX) = F64.inf := by
  show overflow (f64MAX + f64MAX) = F64.inf
  rw [overflow, if_pos (by linarith [f64MAX_pos])]

theorem c2_counterexample :
    chromoNan.evaluate_fitness_mse dsNan = F64.nan ∧
    F64.nan ≠ F64.finite f64MAX ∧
    f64IsNan (chromoNan.evaluate_fitness_mse dsNan) = true := by
  have hroot : chromoNan.evaluate_fitness [F64.finite 0, F64.finite 0] = F64.nan := by
    show f64Sub (f64Add (F64.finite f64MAX) (F64.finite f64MAX))
        (f64Add (F64.finite f64MAX) (F64.finite f64MAX)) = F64.nan
    rw [f64Add_MAX_MAX]
    rfl
  have hmse : chromoNan.evaluate_fitness_mse dsNan = F64.nan := by
    unfold Chromosome.evaluate_fitness_mse
    simp only [dsNan, List.foldl_cons, List.foldl_nil]
    rw [hroot]
    rfl
  exact ⟨hmse, by decide, by rw [hmse]; rfl⟩

theorem clamp_not_infinite (x : F64) :
    f64IsInfinite (if f64IsInfinite x then F64.finite f64MAX else x) = false := by
  cases h : f64IsInfinite x
  · simp [h]
  · simp [h, f64IsInfinite]

/-- C2 amended: the stored fitness is never infinite — an infinite total is
clamped to `f64::MAX` — but a NaN total is stored as NaN, so only the
infinite (not all non-finite) values are kept out of selection. -/
theorem c2_theorem (c : Chromosome) (ds : List (List F64)) :
    f64IsInfinite (c.evaluate_fitness_mse ds) = false := by
  unfold Chromosome.evaluate_fitness_mse
  exact clamp_not_infinite _

/-- A member with fitness 1 whose single gene reads variable 0. -/
def chromoA : Chromosome :=
  { genes := [{ type_of_gene := GeneType.var 0, left_ptr := 0, right_ptr := 0, ops := Op.nothing }]
    fitness_value := F64.finite 1
    accessed := false }

/-- A member with the same fitness 1 whose single gene reads variable 1. -/
def chromoB : Chromosome :=
  { genes := [{ type_of_gene := GeneType.var 1, left_ptr := 0, right_ptr := 0, ops := Op.nothing }]
    fitness_value := F64.finite 1
    accessed := false }

/-- A two-member population drawn on below with `c1 = chromoA`,
`c2 = chromoB`. -/
def popTie : Population := { population := [chromoA, chromoB], best := chromoA }

/-- C3 counterexample: the two drawn members have equal fitness values, the
first drawn is `chromoA`, yet `tournament_selection` returns the second
drawn `chromoB` (the source's `if c1 < c2 { c1 } else { c2 }` sends ties to
`c2`), contradicting the claim that ties return the first drawn. -/
theorem c3_counterexample :
    get_random_chromosome popTie 0 = chromoA ∧
    get_random_chromosome popTie 1 = chromoB ∧
    f64Eq chromoA.fitness_value chromoB.fitness_value = true ∧
    tournament_selection popTie 0 1 = chromoB ∧
    chromoB ≠ chromoA := by
  refine ⟨by decide, by decide, by decide, by decide, by decide⟩

/-- C3 amended: `tournament_selection` returns the drawn member with the
strictly lower fitness value; when the two fitness values are equal it
returns the second one drawn. -/
theorem c3_theorem (p : Population) (raw1 raw2 : ℕ) :
    (f64Lt (get_random_chromosome p raw1).fitness_value
        (get_random_chromosome p raw2).fitness_value = true →
      tournament_selection p raw1 raw2 = get_random_chromosome p raw1) ∧
    (f64Lt (get_random_chromosome p raw2).fitness_value
        (get_random_chromosome p raw1).fitness_value = true →
      tournament_selection p raw1 raw2 = get_random_chromosome p raw2) ∧
    (f64Eq (get_random_chromosome p raw1).fitness_value
        (get_random_chromosome p raw2).fitness_value = true →
      tournament_selection p raw1 raw2 = get_random_chromosome p raw2) := by
  refine ⟨fun h => ?_, fun h => ?_, fun h => ?_⟩
  · simp [tournament_selection, h]
  · simp [tournament_selection, f64Lt_asymm _ _ h]
  · simp [tournament_selection, f64Eq_not_lt _ _ h]

/-- Witness for C3 at the concrete tie above. -/
theorem c3_theorem_witness :
    tournament_selection popTie 0 1 = get_random_chromosome popTie 1 :=
  (c3_theorem popTie 0 1).2.2 (by decide)

theorem flag_or_pos (loc : ℕ) : ((loc == 0) || (loc == 1)) = true ∨ 0 < loc := by
  cases loc with
  | zero => exact Or.inl rfl
  | succ k => exact Or.inr (Nat.succ_pos k)

theorem flag_or_pos2 (i : ℕ) : ((i == 1) || (i == 0)) = true ∨ 0 < i := by
  cases i with
  | zero => exact Or.inl rfl
  | succ k => exact Or.inr (Nat.succ_pos k)

theorem genesOkB_map_range2 (f : ℕ → Gene) (hf : ∀ i, geneOkB (f i) i = true) :
    ∀ (n s : ℕ), genesOkB ((List.range' s n).map f) s = true := by
  intro n
  induction n with
  | zero => intro s; rfl
  | succ m ih =>
    intro s
    show (geneOkB (f s) s && genesOkB ((List.range' (s + 1) m).map f) (s + 1)) = true
    rw [hf s, ih (s + 1)]
    rfl

theorem getD_map_range2 (f : ℕ → Gene) :
    ∀ (n s i : ℕ), i < n → ((List.range' s n).map f).getD i defaultGene = f (s + i) := by
  intro n
  induction n with
  | zero => intro s i h; exact absurd h (by omega)
  | succ m ih =>
    intro s i h
    cases i with
    | zero => rfl
    | succ k =>
      show ((List.range' (s + 1) m).map f).getD k defaultGene = f (s + (k + 1))
      rw [ih (s + 1) k (by omega)]
      congr 1
      omega

theorem terminal01B_of_getD (c : Chromosome)
    (h0 : 0 < c.genes.length → isTerminalB (c.genes.getD 0 defaultGene) = true)
    (h1 : 1 < c.genes.length → isTerminalB (c.genes.getD 1 defaultGene) = true) :
    terminal01B c = true := by
  rcases c with ⟨genes, fv, ac⟩
  cases genes with
  | nil => rfl
  | cons g0 rest =>
    cases rest with
    | nil => exact h0 (by simp)
    | cons g1 rest2 =>
      show (isTerminalB g0 && isTerminalB g1) = true
      rw [show isTerminalB g0 = true from h0 (by simp),
        show isTerminalB g1 = true from h1 (by simp)]
      rfl

theorem terminal01B_getD0 (c : Chromosome) (h : terminal01B c = true)
    (hl : 0 < c.genes.length) : isTerminalB (c.genes.getD 0 defaultGene) = true := by
  rcases c with ⟨genes, fv, ac⟩
  cases genes with
  | nil => simp at hl
  | cons g0 rest =>
    cases rest with
    | nil => exact h
    | cons g1 rest2 =>
      have h2 : (isTerminalB g0 && isTerminalB g1) = true := h
      exact (by simpa using h2 : isTerminalB g0 = true ∧ isTerminalB g1 = true).1

theorem terminal01B_getD1 (c : Chromosome) (h : terminal01B c = true)
    (hl : 1 < c.genes.length) : isTerminalB (c.genes.getD 1 defaultGene) = true := by
  rcases c with ⟨genes, fv, ac⟩
  cases genes with
  | nil => simp at hl
  | cons g0 rest =>
    cases rest with
    | nil => simp at hl
    | cons g1 rest2 =>
      have h2 : (isTerminalB g0 && isTerminalB g1) = true := h
      exact (by simpa using h2 : isTerminalB g0 = true ∧ isTerminalB g1 = true).2

theorem new_x_genes (n nv : ℕ) (rcs : ℕ → RandChoices) :
    (Chromosome.new_x n nv rcs).genes =
      (List.range' 0 n).map (fun i => Gene.new_random_gene i nv (i == 1 || i == 0) (rcs i)) := by
  show (List.range n).map _ = _
  rw [List.range_eq_range']

theorem new_x_length (n nv : ℕ) (rcs : ℕ → RandChoices) :
    (Chromosome.new_x n nv rcs).genes.length = n := by
  simp [Chromosome.new_x]

/-- C6: every chromosome produced by `Chromosome::new_x` satisfies the
acyclicity invariant (each gene's reference pointers are strictly below its
own position) and has terminals at positions 0 and 1, and
`Chromosome::mutate` preserves both properties — for every outcome of the
random draws. -/
theorem c6_invariants :
    (∀ (n nv : ℕ) (rcs : ℕ → RandChoices),
      chromosomeOkB (Chromosome.new_x n nv rcs) = true ∧
      terminal01B (Chromosome.new_x n nv rcs) = true) ∧
    (∀ (c : Chromosome) (nv rawLoc : ℕ) (rc : RandChoices),
      0 < c.genes.length → chromosomeOkB c = true → terminal01B c = true →
      chromosomeOkB (c.mutate nv rawLoc rc) = true ∧
      terminal01B (c.mutate nv rawLoc rc) = true) := by
  constructor
  · intro n nv rcs
    constructor
    · show genesOkB (Chromosome.new_x n nv rcs).genes 0 = true
      rw [new_x_genes]
      exact genesOkB_map_range2 _
        (fun i => new_random_gene_ok i nv (i == 1 || i == 0) (rcs i) (flag_or_pos2 i)) n 0
    · apply terminal01B_of_getD
      · intro h0
        rw [new_x_length] at h0
        rw [new_x_genes, getD_map_range2 _ n 0 0 h0]
        exact new_random_gene_terminal 0 nv (rcs 0)
      · intro h1
        rw [new_x_length] at h1
        rw [new_x_genes, getD_map_range2 _ n 0 1 h1]
        exact new_random_gene_terminal 1 nv (rcs 1)
  · intro c nv rawLoc rc hlen hok hterm
    constructor
    · show genesOkB (c.genes.set (rawLoc % c.genes.length)
        (Gene.new_random_gene (rawLoc % c.genes.length) nv
          (((rawLoc % c.genes.length) == 0) || ((rawLoc % c.genes.length) == 1)) rc)) 0 = true
      refine genesOkB_set _ _ _ _ hok ?_
      simpa using new_random_gene_ok (rawLoc % c.genes.length) nv
        (((rawLoc % c.genes.length) == 0) || ((rawLoc % c.genes.length) == 1)) rc
        (flag_or_pos _)
    · apply terminal01B_of_getD
      · intro h0
        show isTerminalB ((c.genes.set (rawLoc % c.genes.length)
          (Gene.new_random_gene (rawLoc % c.genes.length) nv
            (((rawLoc % c.genes.length) == 0) || ((rawLoc % c.genes.length) == 1)) rc)).getD 0
          defaultGene) = true
        by_cases hz : rawLoc % c.genes.length = 0
        · rw [hz, getD_set_self _ _ _ _ (by omega)]
          exact new_random_gene_terminal 0 nv rc
        · rw [getD_set_ne _ _ _ _ _ (fun he => hz he.symm)]
          exact terminal01B_getD0 c hterm hlen
      · intro h1
        show isTerminalB ((c.genes.set (rawLoc % c.genes.length)
          (Gene.new_random_gene (rawLoc % c.genes.length) nv
            (((rawLoc % c.genes.length) == 0) || ((rawLoc % c.genes.length) == 1)) rc)).getD 1
          defaultGene) = true
        have h1c : 1 < c.genes.length := by
          have : (c.mutate nv rawLoc rc).genes.length = c.genes.length := by
            show (c.genes.set _ _).length = c.genes.length
            exact List.length_set _ _ _
          omega
        by_cases hz : rawLoc % c.genes.length = 1
        · rw [hz, getD_set_self _ _ _ _ (by omega)]
          exact new_random_gene_terminal 1 nv rc
        · rw [getD_set_ne _ _ _ _ _ (fun he => hz he.symm)]
          exact terminal01B_getD1 c hterm h1c

/-- Two-gene invariant-satisfying chromosome used in witnesses. -/
def chromoW : Chromosome :=
  { genes :=
      [{ type_of_gene := GeneType.var 0, left_ptr := 0, right_ptr := 0, ops := Op.nothing },
       { type_of_gene := GeneType.constant (F64.finite 0), left_ptr := 0, right_ptr := 0,
         ops := Op.nothing }]
    fitness_value := F64.finite 2
    accessed := false }

/-- Concrete random draws used in witnesses. -/
def rcW : RandChoices :=
  { coin1 := false, coin2 := false, coin3 := true, constRaw := 0, varRaw := 0,
    leftRaw := 3, rightRaw := 5, unaryOpRaw := 0, binaryOpRaw := 1 }

/-- Witness for C6: the mutate clause instantiated at `chromoW`, locus draw
7 (i.e. locus 1), draws `rcW`. -/
theorem c6_invariants_witness :
    chromosomeOkB (chromoW.mutate 1 7 rcW) = true ∧
    terminal01B (chromoW.mutate 1 7 rcW) = true :=
  c6_invariants.2 chromoW 1 7 rcW (by decide) (by decide) (by decide)

/-- C9 amended: after `mutate` on an invariant-satisfying chromosome the
invariant still holds, the gene count is unchanged, every gene at a
position other than the chosen locus is unchanged, and the gene at the
locus is the freshly generated random gene — which may coincide with the
old gene, so at most one (not exactly one) position differs. -/
theorem c9_mutate_frame (c : Chromosome) (nv rawLoc : ℕ) (rc : RandChoices)
    (hlen : 0 < c.genes.length) (hok : chromosomeOkB c = true) :
    chromosomeOkB (c.mutate nv rawLoc rc) = true ∧
    (c.mutate nv rawLoc rc).genes.length = c.genes.length ∧
    (∀ i, i ≠ rawLoc % c.genes.length →
      (c.mutate nv rawLoc rc).genes.getD i defaultGene = c.genes.getD i defaultGene) ∧
    (c.mutate nv rawLoc rc).genes.getD (rawLoc % c.genes.length) defaultGene =
      Gene.new_random_gene (rawLoc % c.genes.length) nv
        (((rawLoc % c.genes.length) == 0) || ((rawLoc % c.genes.length) == 1)) rc := by
  refine ⟨?_, ?_, ?_, ?_⟩
  · show genesOkB (c.genes.set (rawLoc % c.genes.length)
      (Gene.new_random_gene (rawLoc % c.genes.length) nv
        (((rawLoc % c.genes.length) == 0) || ((rawLoc % c.genes.length) == 1)) rc)) 0 = true
    refine genesOkB_set _ _ _ _ hok ?_
    simpa using new_random_gene_ok (rawLoc % c.genes.length) nv
      (((rawLoc % c.genes.length) == 0) || ((rawLoc % c.genes.length) == 1)) rc (flag_or_pos _)
  · show (c.genes.set (rawLoc % c.genes.length)
      (Gene.new_random_gene (rawLoc % c.genes.length) nv
        (((rawLoc % c.genes.length) == 0) || ((rawLoc % c.genes.length) == 1)) rc)).length =
      c.genes.length
    exact List.length_set _ _ _
  · intro i hi
    show (c.genes.set (rawLoc % c.genes.length)
      (Gene.new_random_gene (rawLoc % c.genes.length) nv
        (((rawLoc % c.genes.length) == 0) || ((rawLoc % c.genes.length) == 1)) rc)).getD i
      defaultGene = c.genes.getD i defaultGene
    exact getD_set_ne _ _ _ _ _ hi
  · show (c.genes.set (rawLoc % c.genes.length)
      (Gene.new_random_gene (rawLoc % c.genes.length) nv
        (((rawLoc % c.genes.length) == 0) || ((rawLoc % c.genes.length) == 1)) rc)).getD
      (rawLoc % c.genes.length) defaultGene = _
    exact getD_set_self _ _ _ _ (Nat.mod_lt rawLoc hlen)

/-- Witness for C9 at `chromoW`, locus draw 0, draws `rcW`. -/
theorem c9_mutate_frame_witness :
    chromosomeOkB (chromoW.mutate 1 0 rcW) = true ∧
    (chromoW.mutate 1 0 rcW).genes.length = chromoW.genes.length ∧
    (chromoW.mutate 1 0 rcW).genes.getD 1 defaultGene = chromoW.genes.getD 1 defaultGene := by
  have h := c9_mutate_frame chromoW 1 0 rcW (by decide) (by decide)
  exact ⟨h.1, h.2.1, h.2.2.1 1 (by decide)⟩

/-- Single-gene chromosome whose gene is `Variable(0)`. -/
def chromoM : Chromosome :=
  { genes := [{ type_of_gene := GeneType.var 0, left_ptr := 0, right_ptr := 0, ops := Op.nothing }]
    fitness_value := F64.finite 1
    accessed := false }

/-- Random draws that regenerate exactly the gene `chromoM` already holds:
terminal branch, variable branch, index draw 0. -/
def rcM : RandChoices :=
  { coin1 := true, coin2 := false, coin3 := false, constRaw := 0, varRaw := 0,
    leftRaw := 0, rightRaw := 0, unaryOpRaw := 0, binaryOpRaw := 0 }

/-- C9 counterexample: `mutate` can draw a fresh gene identical to the old
one — here `mutate` returns `chromoM` unchanged, so zero genes differ,
contradicting "exactly one Gene differs from its pre-mutation value". -/
theorem c9_counterexample :
    chromoM.mutate 1 0 rcM = chromoM ∧ 0 < chromoM.genes.length := by
  exact ⟨by decide, by decide⟩

/-- C10: every constant gene produced by random generation holds a value in
`[0, 1)`: directly for `new_random_gene` (whose only constant-producing
path is `new_constant(None)`), for every gene of a `new_x` chromosome, and
for the fresh gene `mutate` writes (all other genes are carried over). -/
theorem c10_random_constants :
    (∀ (curr_loc num_variables : ℕ) (b : Bool) (rc : RandChoices) (x : F64),
      (Gene.new_random_gene curr_loc num_variables b rc).type_of_gene = GeneType.constant x →
      ∃ q : ℚ, x = F64.finite q ∧ 0 ≤ q ∧ q < 1) ∧
    (∀ (n nv : ℕ) (rcs : ℕ → RandChoices) (g : Gene) (x : F64),
      g ∈ (Chromosome.new_x n nv rcs).genes →
      g.type_of_gene = GeneType.constant x →
      ∃ q : ℚ, x = F64.finite q ∧ 0 ≤ q ∧ q < 1) ∧
    (∀ (c : Chromosome) (nv rawLoc : ℕ) (rc : RandChoices) (g : Gene),
      g ∈ (c.mutate nv rawLoc rc).genes →
      g ∈ c.genes ∨
        ∀ x : F64, g.type_of_gene = GeneType.constant x →
          ∃ q : ℚ, x = F64.finite q ∧ 0 ≤ q ∧ q < 1) := by
  have base : ∀ (curr_loc num_variables : ℕ) (b : Bool) (rc : RandChoices) (x : F64),
      (Gene.new_random_gene curr_loc num_variables b rc).type_of_gene = GeneType.constant x →
      ∃ q : ℚ, x = F64.finite q ∧ 0 ≤ q ∧ q < 1 := by
    intro cl nv b rc x h
    exact ⟨randUnit rc.constRaw, new_random_gene_constant_val cl nv b rc x h,
      randUnit_mem rc.constRaw⟩
  refine ⟨base, ?_, ?_⟩
  · intro n nv rcs g x hg hx
    rw [new_x_genes] at hg
    rcases List.mem_map.mp hg with ⟨i, hi, rfl⟩
    exact base i nv _ (rcs i) x hx
  · intro c nv rawLoc rc g hg
    have hg2 : g ∈ c.genes.set (rawLoc % c.genes.length)
        (Gene.new_random_gene (rawLoc % c.genes.length) nv
          (((rawLoc % c.genes.length) == 0) || ((rawLoc % c.genes.length) == 1)) rc) := hg
    rcases List.mem_or_eq_of_mem_set hg2 with h | h
    · exact Or.inl h
    · subst h
      exact Or.inr (fun x hx => base _ nv _ rc x hx)

/-- Random draws taking the constant branch with raw value 5. -/
def rcConst : RandChoices :=
  { coin1 := true, coin2 := true, coin3 := false, constRaw := 5, varRaw := 0,
    leftRaw := 0, rightRaw := 0, unaryOpRaw := 0, binaryOpRaw := 0 }

/-- Witness for C10 at a concrete constant draw. -/
theorem c10_random_constants_witness :
    ∃ q : ℚ, F64.finite (randUnit 5) = F64.finite q ∧ 0 ≤ q ∧ q < 1 :=
  c10_random_constants.1 3 1 false rcConst (F64.finite (randUnit 5)) rfl

theorem cross_genes_ok (a b : List Gene) (loc : ℕ) (ha : genesOkB a 0 = true)
    (hb : genesOkB b 0 = true) (hlenab : a.length = b.length) (hloc : loc ≤ a.length) :
    genesOkB (a.take loc ++ b.drop loc) 0 = true := by
  have hA := genesOkB_append (a.take loc) (a.drop loc) 0
  rw [List.take_append_drop] at hA
  have hA2 : (genesOkB (a.take loc) 0 &&
      genesOkB (a.drop loc) (0 + (a.take loc).length)) = true := by
    rw [← hA]; exact ha
  have hB := genesOkB_append (b.take loc) (b.drop loc) 0
  rw [List.take_append_drop] at hB
  have hB2 : (genesOkB (b.take loc) 0 &&
      genesOkB (b.drop loc) (0 + (b.take loc).length)) = true := by
    rw [← hB]; exact hb
  have ea : (a.take loc).length = loc := by
    rw [List.length_take]
    exact Nat.min_eq_left hloc
  have eb : (b.take loc).length = loc := by
    rw [List.length_take]
    exact Nat.min_eq_left (by omega)
  simp only [Bool.and_eq_true] at hA2 hB2
  rw [genesOkB_append]
  simp only [Bool.and_eq_true]
  refine ⟨hA2.1, ?_⟩
  have h2 := hB2.2
  rw [eb] at h2
  rw [ea]
  exact h2

/-- C5: `cross_with` at any locus in `[0, length)` between two equal-length
invariant-satisfying chromosomes preserves the acyclicity invariant in both
results; every gene before the locus is identical to that chromosome's own
pre-crossover gene and every gene at or after the locus equals the other
chromosome's pre-crossover gene. -/
theorem c5_cross_with (c1 c2 : Chromosome) (loc : ℕ)
    (hlen : c1.genes.length = c2.genes.length)
    (h1 : chromosomeOkB c1 = true) (h2 : chromosomeOkB c2 = true)
    (hloc : loc < c1.genes.length) :
    chromosomeOkB (c1.cross_with c2 loc).1 = true ∧
    chromosomeOkB (c1.cross_with c2 loc).2 = true ∧
    (∀ i, i < loc →
      (c1.cross_with c2 loc).1.genes.getD i defaultGene = c1.genes.getD i defaultGene ∧
      (c1.cross_with c2 loc).2.genes.getD i defaultGene = c2.genes.getD i defaultGene) ∧
    (∀ i, loc ≤ i →
      (c1.cross_with c2 loc).1.genes.getD i defaultGene = c2.genes.getD i defaultGene ∧
      (c1.cross_with c2 loc).2.genes.getD i defaultGene = c1.genes.getD i defaultGene) := by
  have hmin1 : (c1.genes.take loc).length = loc := by
    rw [List.length_take]
    exact Nat.min_eq_left (by omega)
  have hmin2 : (c2.genes.take loc).length = loc := by
    rw [List.length_take]
    exact Nat.min_eq_left (by omega)
  refine ⟨?_, ?_, ?_, ?_⟩
  · show genesOkB (c1.genes.take loc ++ c2.genes.drop loc) 0 = true
    exact cross_genes_ok _ _ _ h1 h2 hlen (by omega)
  · show genesOkB (c2.genes.take loc ++ c1.genes.drop loc) 0 = true
    exact cross_genes_ok _ _ _ h2 h1 hlen.symm (by omega)
  · intro i hi
    constructor
    · show (c1.genes.take loc ++ c2.genes.drop loc).getD i defaultGene =
        c1.genes.getD i defaultGene
      rw [getD_append_left _ _ _ _ (by omega)]
      exact getD_take _ _ _ _ hi
    · show (c2.genes.take loc ++ c1.genes.drop loc).getD i defaultGene =
        c2.genes.getD i defaultGene
      rw [getD_append_left _ _ _ _ (by omega)]
      exact getD_take _ _ _ _ hi
  · intro i hi
    constructor
    · show (c1.genes.take loc ++ c2.genes.drop loc).getD i defaultGene =
        c2.genes.getD i defaultGene
      rw [getD_append_right _ _ _ _ (by omega), hmin1, getD_drop,
        show loc + (i - loc) = i from by omega]
    · show (c2.genes.take loc ++ c1.genes.drop loc).getD i defaultGene =
        c1.genes.getD i defaultGene
      rw [getD_append_right _ _ _ _ (by omega), hmin2, getD_drop,
        show loc + (i - loc) = i from by omega]

/-- Three-gene invariant-satisfying chromosome for the C5 witness. -/
def chromoX : Chromosome :=
  { genes :=
      [{ type_of_gene := GeneType.var 0, left_ptr := 0, right_ptr := 0, ops := Op.nothing },
       { type_of_gene := GeneType.var 1, left_ptr := 0, right_ptr := 0, ops := Op.nothing },
       { type_of_gene := GeneType.unary, left_ptr := 1, right_ptr := 0, ops := Op.square }]
    fitness_value := F64.finite 3
    accessed := false }

/-- Second three-gene invariant-satisfying chromosome for the C5 witness. -/
def chromoY : Chromosome :=
  { genes :=
      [{ type_of_gene := GeneType.var 1, left_ptr := 0, right_ptr := 0, ops := Op.nothing },
       { type_of_gene := GeneType.var 0, left_ptr := 0, right_ptr := 0, ops := Op.nothing },
       { type_of_gene := GeneType.binary, left_ptr := 0, right_ptr := 1, ops := Op.add }]
    fitness_value := F64.finite 4
    accessed := false }

/-- Witness for C5 at locus 1. -/
theorem c5_cross_with_witness :
    chromosomeOkB (chromoX.cross_with chromoY 1).1 = true ∧
    chromosomeOkB (chromoX.cross_with chromoY 1).2 = true ∧
    (chromoX.cross_with chromoY 1).1.genes.getD 0 defaultGene =
      chromoX.genes.getD 0 defaultGene ∧
    (chromoX.cross_with chromoY 1).1.genes.getD 2 defaultGene =
      chromoY.genes.getD 2 defaultGene := by
  have h := c5_cross_with chromoX chromoY 1 (by decide) (by decide) (by decide) (by decide)
  exact ⟨h.1, h.2.1, (h.2.2.1 0 (by decide)).1, (h.2.2.2 2 (by decide)).1⟩

/-- C7: one `Population::mate` call always pushes an unmodified clone of
the cached best into the new population (same genes — never crossed, never
mutated; only its fitness field is recomputed by `evaluate`), and since
`find_best_min` replaces the cached best only with a strictly better
member, the best fitness value `mate` returns is never worse than the old
one: strictly lower, or exactly the old value. -/
theorem c7_mate_elitism (p : Population) (num_variables : ℕ) (rs : ℕ → OffspringRand)
    (ds : List (List F64)) :
    (∃ c, c ∈ (p.mate num_variables rs ds).population ∧ c.genes = p.best.genes) ∧
    (f64Lt (p.mate num_variables rs ds).best.fitness_value p.best.fitness_value = true ∨
      (p.mate num_variables rs ds).best.fitness_value = p.best.fitness_value) := by
  constructor
  · refine ⟨evalChromosome p.best ds, ?_, rfl⟩
    show evalChromosome p.best ds ∈
      (offspringPairs p num_variables rs (p.population.length / 2) ++ [p.best]).map
        (fun c => evalChromosome c ds)
    exact List.mem_map.mpr ⟨p.best, by simp, rfl⟩
  · exact foldl_best_le
      ((offspringPairs p num_variables rs (p.population.length / 2) ++ [p.best]).map
        (fun c => evalChromosome c ds)) p.best

/-- C4 amended: the core never rejects any population size — `mate` runs
for every size and produces `2 * (n / 2) + 1` members from `n`: odd sizes
are preserved, while an even size `n` silently grows to `n + 1`. -/
theorem c4_mate_length (p : Population) (num_variables : ℕ) (rs : ℕ → OffspringRand)
    (ds : List (List F64)) :
    (p.mate num_variables rs ds).population.length = 2 * (p.population.length / 2) + 1 := by
  show ((offspringPairs p num_variables rs (p.population.length / 2) ++ [p.best]).map
    (fun c => evalChromosome c ds)).length = _
  rw [List.length_map, List.length_append, offspringPairs_length]
  simp

/-- A population of even size 2. -/
def popEven : Population := { population := [chromoM, chromoM], best := chromoM }

/-- Concrete random draws for one offspring pair. -/
def orW : OffspringRand :=
  { t1a := 0, t1b := 1, t2a := 1, t2b := 0, doCross := false, crossLocRaw := 0,
    doMut1 := false, mutLocRaw1 := 0, mutRc1 := rcM, doMut2 := false, mutLocRaw2 := 0,
    mutRc2 := rcM }

/-- C4 counterexample: the source contains no population-size validation.
`mate` on the even-size-2 population `popEven` runs normally — the model is
total exactly because the source has no rejection path — and returns a
population of 3 members, so an even size is not rejected before
evolutionary work begins (and the size is not even preserved). -/
theorem c4_counterexample :
    (popEven.mate 1 (fun _ => orW) dsNan).population.length = 3 := by
  rfl

/-- Three-column dataset: two input variables (v0, v1) and the target. -/
def dsThree : List (List F64) := [[F64.finite 1, F64.finite 1, F64.finite 1]]

/-- C1 counterexample: on a 3-column dataset the claim demands variable
count `3 - 1 = 2` with variable indices uniform on `[0, 2)`; the source
passes `dataset[0].len() - 2 = 1` to every `Chromosome::new_x`, and every
variable draw then yields index 0 — input column v1 is never referenced. -/
theorem c1_counterexample :
    initVarCount dsThree = 1 ∧
    (dsThree.getD 0 []).length - 1 = 2 ∧
    initVarCount dsThree ≠ (dsThree.getD 0 []).length - 1 ∧
    Gene.new_random_variable (initVarCount dsThree) 1 =
      { type_of_gene := GeneType.var 0, left_ptr := 0, right_ptr := 0, ops := Op.nothing } := by
  exact ⟨rfl, rfl, by decide, rfl⟩

/-- C1 amended: `Population::initialize` builds every chromosome with
variable count `dataset[0].len() - 2` (column count minus two), so whenever
that count is positive, every variable gene of every member of the freshly
initialized population holds an index in `[0, column count - 2)`. -/
theorem c1_init_var_count (size num_genes : ℕ) (ds : List (List F64))
    (rcs : ℕ → ℕ → RandChoices) (hpos : 0 < initVarCount ds) :
    ∀ c, c ∈ (initPopulation size num_genes ds rcs).population →
      ∀ g, g ∈ c.genes → ∀ j, g.type_of_gene = GeneType.var j → j < initVarCount ds := by
  intro c hc g hg j hj
  have hc2 : c ∈ (List.range size).map
      (fun k => Chromosome.new_x num_genes (initVarCount ds) (rcs k)) := hc
  rcases List.mem_map.mp hc2 with ⟨k, hk, rfl⟩
  rw [new_x_genes] at hg
  rcases List.mem_map.mp hg with ⟨i, hi, rfl⟩
  rw [new_random_gene_var_index _ _ _ _ _ hj]
  exact Nat.mod_lt _ hpos

/-- Four-column dataset: three input variables and the target. -/
def dsFour : List (List F64) :=
  [[F64.finite 1, F64.finite 2, F64.finite 3, F64.finite 4]]

/-- The member of `initPopulation 1 2 dsFour (fun _ _ => rcM)`. -/
def cInit : Chromosome := Chromosome.new_x 2 (initVarCount dsFour) (fun _ => rcM)

/-- The first gene of `cInit`. -/
def gInit : Gene :=
  Gene.new_random_gene 0 (initVarCount dsFour) ((0 == 1) || (0 == 0)) rcM

/-- Witness for C1 amended, fully instantiated at the 4-column dataset. -/
theorem c1_init_var_count_witness : (0 : ℕ) < initVarCount dsFour := by
  refine c1_init_var_count 1 2 dsFour (fun _ _ => rcM) (by decide) cInit ?_ gInit ?_ 0 ?_
  · show cInit ∈ (List.range 1).map
      (fun k => Chromosome.new_x 2 (initVarCount dsFour) (fun _ => rcM))
    rw [show List.range 1 = [0] from rfl]
    exact List.mem_map.mpr ⟨0, by decide, rfl⟩
  · rw [show cInit.genes = (Chromosome.new_x 2 (initVarCount dsFour) (fun _ => rcM)).genes
      from rfl, new_x_genes]
    exact List.mem_map.mpr ⟨0, by decide, rfl⟩
  · rfl
